import Mathlib

set_option maxRecDepth 40000

/-
  Verification of the minihttp resource cache, site registry and request
  resolver (shallow embedding of site/resource/config code).

  Conventions of the embedding:
  * Byte slices are `List Nat`; Go `nil` vs non-nil slices are `Option Bytes`.
  * Go maps are association lists (`alookup`/`aupd`); assignment prepends and
    lookup observes the latest binding, matching Go map semantics observably.
  * External collaborators (sha256, gzip compression, the clock, mime tables,
    RFC1123 formatting/parsing, TOML parsing) are oracle functions carried in
    a `Collab`/`FS` record; the core logic is translated from the source.
  * `time.Duration` is modelled in whole seconds (the code only compares a
    duration with zero and renders whole seconds into max-age).
  * The float comparison `float64(len(gzip))*1.1 >= float64(len(body))` is
    modelled exactly over integers as `11 * gzLen >= 10 * bodyLen`; the two
    differ only at float-rounding boundaries of the constant 1.1, which no
    statement here depends on.
  * Errors carry no message (`Except Unit`); only success/failure matters.
-/

abbrev Bytes := List Nat

def strBytes (s : String) : Bytes := s.data.map Char.toNat

/-- Association-list lookup, modelling a Go map read (`m[k]`). -/
def alookup {α : Type} : List (String × α) → String → Option α
  | [], _ => none
  | (k', v) :: m, k => if k = k' then some v else alookup m k

/-- Association-list update, modelling a Go map assignment (`m[k] = v`). -/
def aupd {α : Type} (m : List (String × α)) (k : String) (v : α) : List (String × α) :=
  (k, v) :: m

theorem alookup_cons {α : Type} (m : List (String × α)) (k k' : String) (v : α) :
    alookup ((k', v) :: m) k = if k = k' then some v else alookup m k := rfl

/- ## Path helpers (Go `path` package, lexical only) -/

/-- Split a character list at every occurrence of `sep` (like
`String.splitOn` with a one-character separator, but kernel-reducible). -/
def splitChar (sep : Char) : List Char → List (List Char)
  | [] => [[]]
  | c :: cs =>
    let r := splitChar sep cs
    if c == sep then [] :: r
    else
      match r with
      | [] => [[c]]
      | g :: gs => (c :: g) :: gs

/-- `startsWithL pre s`: `s` begins with `pre` (on character lists). -/
def startsWithL : List Char → List Char → Bool
  | [], _ => true
  | _ :: _, [] => false
  | n :: ns, h :: hs => n == h && startsWithL ns hs

/-- Models Go `strings.HasPrefix s pre`. -/
def strHasPre (pre s : String) : Bool := startsWithL pre.data s.data

/-- Models Go `path.Clean`: collapse empty and "." elements, resolve ".."
lexically, keep leading ".." on relative paths. -/
def pathClean (p : String) : String :=
  if p = "" then "."
  else
    let rooted := match p.data with
      | c :: _ => c == '/'
      | [] => false
    let comps := ((splitChar '/' p.data).map String.mk).filter
      (fun c => !(c == "") && !(c == "."))
    let out := comps.foldl (fun acc c =>
      if c == ".." then
        match acc.getLast? with
        | some last => if last == ".." then acc ++ [c] else acc.dropLast
        | none => if rooted then acc else [c]
      else acc ++ [c]) []
    let j := String.intercalate "/" out
    if rooted then "/" ++ j
    else if j = "" then "." else j

/-- Models Go `path.Join`: drop empty elements, join with "/", then Clean. -/
def pathJoinList (ps : List String) : String :=
  let ne := ps.filter (fun s => !(s == ""))
  if ne.isEmpty then "" else pathClean (String.intercalate "/" ne)

def extFromRev : List Char → List Char → String
  | [], _ => ""
  | c :: rest, acc =>
    if c = '/' then ""
    else if c = '.' then String.mk (c :: acc)
    else extFromRev rest (c :: acc)

/-- Models Go `path.Ext`: the suffix from the final dot in the final element. -/
def pathExt (p : String) : String := extFromRev p.data.reverse []

/-- Models the use of `net.SplitHostPort` in fetch: exactly one colon splits
off the port; no colon or too many colons is a SplitHostPort error, in which
case fetch keeps the whole host. Bracketed IPv6 literals are not modelled
(no claim touches them). -/
def stripPort (h : String) : String :=
  match splitChar ':' h.data with
  | [a, _] => String.mk a
  | _ => h

def hasSubL (needle : List Char) : List Char → Bool
  | [] => needle.isEmpty
  | c :: rest => startsWithL needle (c :: rest) || hasSubL needle rest

/-- Models `strings.Contains hay needle`. -/
def hasSub (hay needle : String) : Bool := hasSubL needle.data hay.data

def hexStr (n : Nat) : String := String.mk (Nat.toDigits 16 n)

/-- Models the Go stdlib `mime.TypeByExtension` collaborator for the handful
of extensions exercised here; unknown extensions map to "", as Go does for
unregistered extensions on a bare table. -/
def mimeTypeByExtension (ext : String) : String :=
  if ext == ".html" then "text/html; charset=utf-8"
  else if ext == ".css" then "text/css; charset=utf-8"
  else if ext == ".txt" then "text/plain; charset=utf-8"
  else ""

/- ## Configuration (config.go) -/

structure SiteConfigGeneral where
  noDefaultFile : Bool
  defaultFile : String
  fancyFolder : String
deriving DecidableEq

structure SiteConfigCache where
  noCacheFromMem : Bool
  noCacheFromDisk : Bool
  cacheTimes : List (String × Nat)
  defaultCacheTime : Nat
  blacklist : List String
deriving DecidableEq

structure SiteConfigCompression where
  noCompressFromMem : Bool
  noCompressFromDisk : Bool
  minSize : Nat
  minRatio : ℚ
  blacklist : List String
deriving DecidableEq

structure SiteConfig where
  general : SiteConfigGeneral
  cache : SiteConfigCache
  compression : SiteConfigCompression
deriving DecidableEq

def DefaultCacheTimes : List (String × Nat) :=
  [(".woff", 7776000), (".woff2", 7776000), (".ttf", 7776000), (".eot", 7776000),
   (".otf", 7776000), (".jpg", 7776000), (".png", 7776000), (".css", 604800)]

def DefaultSiteConfig : SiteConfig :=
  { general := { noDefaultFile := false, defaultFile := "index.html", fancyFolder := "/f/" },
    cache := { noCacheFromMem := false, noCacheFromDisk := false,
               cacheTimes := DefaultCacheTimes, defaultCacheTime := 3600, blacklist := [] },
    compression := { noCompressFromMem := false, noCompressFromDisk := false,
                     minSize := 256, minRatio := (11 : ℚ) / 10,
                     blacklist := [".jpg", ".zip", ".gz", ".tgz"] } }

/- ## Resource -/

structure Resource where
  body : Option Bytes
  gzip : Option Bytes
  bodyReadCloser : Option String
  permitGZIP : Bool
  loaded : Nat
  cnttype : String
  cache : String
  hash : String
  ghash : String
  path : String
  fromDisk : Bool
  config : SiteConfig
deriving DecidableEq

/-- The Go zero value of `resource` (the nil `config` pointer, which the code
never dereferences on such a resource, is represented by the default). -/
def emptyResource : Resource :=
  { body := none, gzip := none, bodyReadCloser := none, permitGZIP := false,
    loaded := 0, cnttype := "", cache := "", hash := "", ghash := "",
    path := "", fromDisk := false, config := DefaultSiteConfig }

/-- `resource.update` from site code: recompute content type, cache directive
and the compression permission. Translated branch by branch; note that it
reads neither `config.Compression.MinRatio` (the ratio is the constant 1.1)
nor does it reset `permitGZIP` on the early returns. -/
def Resource.update (r : Resource) : Resource :=
  let cacheconf := r.config.cache
  let ext := pathExt r.path
  let compressconf := r.config.compression
  let mincompsize :=
    if compressconf.minSize = 0 then DefaultSiteConfig.compression.minSize
    else compressconf.minSize
  let cacheDur :=
    if (!r.fromDisk && !cacheconf.noCacheFromMem)
        || (r.fromDisk && !cacheconf.noCacheFromDisk) then
      match alookup cacheconf.cacheTimes ext with
      | some x => x
      | none => cacheconf.defaultCacheTime
    else 0
  let r1 := { r with
    cnttype := mimeTypeByExtension ext,
    cache := if cacheDur = 0 then "public, max-age=0, no-cache"
             else "public, max-age=" ++ toString cacheDur }
  if (r1.fromDisk && compressconf.noCompressFromDisk)
      || (!r1.fromDisk && compressconf.noCompressFromMem)
      || (r1.body.isSome && decide ((r1.body.getD []).length < mincompsize)) then r1
  else if compressconf.blacklist.contains ext then r1
  else if r1.gzip.isSome
      && decide (11 * (r1.gzip.getD []).length ≥ 10 * (r1.body.getD []).length) then
    { r1 with gzip := none }
  else { r1 with permitGZIP := true }

structure CacheEntry where
  plain : Bytes
  gz : Bytes
  hash : String
  ghash : String
deriving DecidableEq

abbrev Cachemap := List (String × CacheEntry)

structure Site where
  http : List (String × Resource)
  https : List (String × Resource)
  config : SiteConfig
deriving DecidableEq

def newSite (config : SiteConfig) : Site :=
  { http := [], https := [], config := config }

/- ## Collaborators and the filesystem oracle -/

structure Collab where
  sha : Bytes → String
  gzipComp : Bytes → Bytes
  now : Nat
  fmtTime : Nat → String
  parseTime : String → Option Nat

structure SiteConfToml where
  general : Option SiteConfigGeneral
  cache : Option SiteConfigCache
  compression : Option SiteConfigCompression

structure DirEnt where
  name : String
  isDir : Bool
deriving DecidableEq

structure FileInfo where
  isDir : Bool
  modTime : Nat
  size : Nat
deriving DecidableEq

structure FS where
  readDir : String → Option (List DirEnt)
  stat : String → Option FileInfo
  readFile : String → Option Bytes
  walk : String → Option (List String)
  openFile : String → Option FileInfo
  tomlParse : Bytes → Option SiteConfToml

/-- `resource.updateTagCompress`: gzip the body, hash both variants, then
run the policy update. -/
def Resource.updateTagCompress (co : Collab) (r : Resource) : Resource :=
  let gzb := co.gzipComp (r.body.getD [])
  Resource.update { r with gzip := some gzb,
                           hash := co.sha (r.body.getD []),
                           ghash := co.sha gzb }

/-- The in-memory resource record built by `site.addResource` just before its
`update()` call (fields in the order the Go code assigns them). -/
def mkMemRes (cfg : SiteConfig) (dp : String) (mt : Nat) (b g : Bytes)
    (h gh : String) : Resource :=
  { emptyResource with path := dp, config := cfg, loaded := mt,
                       body := some b, gzip := some g, hash := h, ghash := gh }

/-- `readSiteConf`: returns (conf, hadError). A read failure yields the
default config together with the error (non-fatal to the caller); a TOML
parse failure yields a nil conf (fatal to the caller); otherwise missing
sections are filled from the default. -/
def readSiteConf (fs : FS) (p : String) : Option SiteConfig × Bool :=
  match fs.readFile p with
  | none => (some DefaultSiteConfig, true)
  | some b =>
    match fs.tomlParse b with
    | none => (none, true)
    | some t =>
      (some { general := t.general.getD DefaultSiteConfig.general,
              cache := t.cache.getD DefaultSiteConfig.cache,
              compression := t.compression.getD DefaultSiteConfig.compression }, false)

/-- The final publication step of `site.addResource`: install the resource
into the http and/or https map as flagged. -/
def publish (s : Site) (sp : String) (r : Resource) (forHTTP forHTTPS : Bool) : Site :=
  { s with http := if forHTTP then aupd s.http sp r else s.http,
           https := if forHTTPS then aupd s.https sp r else s.https }

/-- `site.addResource`: stat the path (directory entries fall back to the
default file or are silently skipped), read the bytes, dedup via the content
digest in `cm`, build the resource and publish it in the scheme maps.
Returns the new site, the new cache map and the number of gzip compressions
performed (0 on a cache hit, 1 on a miss). -/
def addResource (co : Collab) (fs : FS) (s : Site) (diskpath sitepath : String)
    (cm : Cachemap) (forHTTP forHTTPS : Bool) : Except Unit (Site × Cachemap × Nat) :=
  match fs.stat diskpath with
  | none => .error ()
  | some fi0 =>
    let resolved : Option (String × FileInfo) :=
      if fi0.isDir then
        let dp := pathJoinList [diskpath, s.config.general.defaultFile]
        match fs.stat dp with
        | none => none
        | some fi1 => if fi1.isDir then none else some (dp, fi1)
      else some (diskpath, fi0)
    match resolved with
    | none => .ok (s, cm, 0)
    | some (dp, fi) =>
      match fs.readFile dp with
      | none => .error ()
      | some b =>
        let k := co.sha b
        let sel : CacheEntry × Cachemap × Nat :=
          match alookup cm k with
          | some e => (e, cm, 0)
          | none =>
            let gzb := co.gzipComp b
            let e : CacheEntry := { plain := b, gz := gzb, hash := k, ghash := co.sha gzb }
            (e, (k, e) :: cm, 1)
        let r := Resource.update
          (mkMemRes s.config dp fi.modTime sel.1.plain sel.1.gz sel.1.hash sel.1.ghash)
        .ok (publish s sitepath r forHTTP forHTTPS, sel.2.1, sel.2.2)

/- ## The load pipeline (sitelist.load) -/

structure LoadSt where
  sites : List (String × Site)
  errNoSuchHost : Option Resource
  errNoSuchFile : Option Resource
  cm : Cachemap
  gzCount : Nat
deriving DecidableEq

/-- Fold of the `filepath.Walk` callback over the visited paths of one scheme
subtree: each path is offered to `addResource` with its site-relative name. -/
def foldPaths (co : Collab) (fs : FS) (start : String) (forHTTP forHTTPS : Bool) :
    List String → Site × Cachemap × Nat → Except Unit (Site × Cachemap × Nat)
  | [], acc => .ok acc
  | p :: rest, (s, cm, cnt) =>
    let rel := String.mk (p.data.drop start.data.length)
    let p2 := if rel = "" then "/" else rel
    match addResource co fs s p p2 cm forHTTP forHTTPS with
    | .error e => .error e
    | .ok (s', cm', n) => foldPaths co fs start forHTTP forHTTPS rest (s', cm', cnt + n)

/-- The per-host scheme loop of `sitelist.load`: walk each scheme directory
("http"/"https"/"common" publish into the maps, anything else walks but
publishes nowhere, as in the source). -/
def foldSchemes (co : Collab) (fs : FS) (root name : String) :
    List DirEnt → Site × Cachemap × Nat → Except Unit (Site × Cachemap × Nat)
  | [], acc => .ok acc
  | c :: rest, acc =>
    if c.isDir = false then foldSchemes co fs root name rest acc
    else
      let scheme := c.name
      let forHTTP := scheme == "http" || scheme == "common"
      let forHTTPS := scheme == "https" || scheme == "common"
      let start := pathJoinList [root, name, scheme]
      match fs.walk start with
      | none => .error ()
      | some paths =>
        match foldPaths co fs start forHTTP forHTTPS paths acc with
        | .error e => .error e
        | .ok acc' => foldSchemes co fs root name rest acc'

/-- Build one host's site from its scheme subtrees and publish it in the
sites map (the Go code inserts the site pointer first and then populates it;
the final map is the same). -/
def buildHost (co : Collab) (fs : FS) (root name : String) (schemes : List DirEnt)
    (conf : SiteConfig) (st : LoadSt) : Except Unit LoadSt :=
  match foldSchemes co fs root name schemes (newSite conf, st.cm, st.gzCount) with
  | .error e => .error e
  | .ok (s, cm', cnt') =>
    .ok { st with sites := aupd st.sites name s, cm := cm', gzCount := cnt' }

/-- One top-level root entry of `sitelist.load`: plain files named 404.html /
403.html become the global fallbacks, other plain files are skipped, and a
directory is a host (unlistable host dir or unparseable policy file are
fatal; a missing/unreadable policy file substitutes the default). -/
def processEntry (co : Collab) (fs : FS) (root : String) (st : LoadSt)
    (e : DirEnt) : Except Unit LoadSt :=
  let p := pathJoinList [root, e.name]
  if e.isDir = false then
    if e.name == "404.html" || e.name == "403.html" then
      match fs.readFile p with
      | none => .error ()
      | some b =>
        let res := Resource.updateTagCompress co
          { emptyResource with path := p, config := DefaultSiteConfig,
                               loaded := co.now, body := some b }
        if e.name == "404.html" then .ok { st with errNoSuchFile := some res }
        else .ok { st with errNoSuchHost := some res }
    else .ok st
  else
    match fs.readDir p with
    | none => .error ()
    | some schemes =>
      match readSiteConf fs (pathJoinList [root, e.name, "config.toml"]) with
      | (none, _) => .error ()
      | (some conf, _) => buildHost co fs root e.name schemes conf st

def foldEntries (co : Collab) (fs : FS) (root : String) :
    List DirEnt → LoadSt → Except Unit LoadSt
  | [], st => .ok st
  | e :: rest, st =>
    match processEntry co fs root st e with
    | .error er => .error er
    | .ok st' => foldEntries co fs root rest st'

/-- The pure build phase of `sitelist.load`: everything before the install. -/
def buildGenerationAux (co : Collab) (fs : FS) (root : String) : Except Unit LoadSt :=
  match fs.readDir root with
  | none => .error ()
  | some files =>
    foldEntries co fs root files
      { sites := [], errNoSuchHost := none, errNoSuchFile := none, cm := [], gzCount := 0 }

/- ## The site registry (sitelist) -/

structure Sitelist where
  sites : List (String × Site)
  errNoSuchHost : Option Resource
  errNoSuchFile : Option Resource
  root : String
  devmode : Bool
  defaulthost : String
  filesInMemory : Nat
  plainBytesInMemory : Nat
  gzipBytesInMemory : Nat
deriving DecidableEq

/-- `sitelist.load`: build in locals, and only on success install the new
host map, fallbacks and recomputed statistics in one step; the Bool flags
whether an error was returned. -/
def Sitelist.load (co : Collab) (fs : FS) (sl : Sitelist) : Sitelist × Bool :=
  match buildGenerationAux co fs sl.root with
  | .error _ => (sl, true)
  | .ok st =>
    ({ sl with sites := st.sites,
               errNoSuchFile := st.errNoSuchFile,
               errNoSuchHost := st.errNoSuchHost,
               filesInMemory := st.cm.length,
               plainBytesInMemory := (st.cm.map (fun kv => kv.2.plain.length)).sum,
               gzipBytesInMemory := (st.cm.map (fun kv => kv.2.gz.length)).sum }, false)

def defaultNoSuchHost : Resource :=
  { emptyResource with
    body := some (strBytes "no such host"),
    cnttype := "text/plain; charset=utf-8",
    cache := "public, max-age=0, no-cache",
    hash := "W/\"go-far-away\"",
    path := "/403.html" }

def defaultNoSuchFile : Resource :=
  { emptyResource with
    body := some (strBytes "no such file"),
    cnttype := "text/plain; charset=utf-8",
    cache := "public, max-age=0, no-cache",
    hash := "W/\"go-away\"",
    path := "/404.html" }

structure URL where
  scheme : String
  host : String
  path : String
deriving DecidableEq

/-- Host resolution step of fetch: the request host, else the default host. -/
def resolveSite (sl : Sitelist) (host : String) : Option Site :=
  match alookup sl.sites host with
  | some s => some s
  | none => alookup sl.sites sl.defaulthost

/-- Scheme dispatch of fetch: "https" selects the https map, anything else
the http map. -/
def schemeMap (s : Site) (scheme : String) : List (String × Resource) :=
  if scheme == "https" then s.https else s.http

/-- The streaming resource synthesized by fetch for a fancy-path hit, before
its `update()` call. -/
def fancyInit (cfg : SiteConfig) (p : String) (mt sz : Nat) : Resource :=
  { emptyResource with
    bodyReadCloser := some p, path := p, config := cfg,
    loaded := mt,
    hash := "W/\"" ++ hexStr mt ++ "-" ++ hexStr sz ++ "i\"",
    ghash := "W/\"" ++ hexStr mt ++ "-" ++ hexStr sz ++ "g\"",
    fromDisk := true, permitGZIP := true }

/-- The from-disk branch of fetch: open the file under the host's fancy
directory; a failed open, failed stat or directory falls through (none). -/
def fancyLookup (fs : FS) (root host : String) (cfg : SiteConfig) (p : String) :
    Option Resource :=
  if strHasPre cfg.general.fancyFolder p then
    let p2 := pathJoinList [root, host, "fancy", p]
    match fs.openFile p2 with
    | some fi =>
      if fi.isDir then none
      else some (Resource.update (fancyInit cfg p2 fi.modTime fi.size))
    | none => none
  else none

/-- The resolution core of `sitelist.fetch` (everything after the devmode
reload): host → in-memory map → fancy disk stream → 404 chain. -/
def Sitelist.fetchResolve (fs : FS) (sl : Sitelist) (u : URL) : Resource × Nat :=
  let host := stripPort u.host
  match resolveSite sl host with
  | none => (sl.errNoSuchHost.getD defaultNoSuchHost, 403)
  | some s =>
    let p := pathClean u.path
    let rmap := schemeMap s u.scheme
    match alookup rmap p with
    | some res => (res, 200)
    | none =>
      match fancyLookup fs sl.root host s.config p with
      | some res => (res, 200)
      | none =>
        match alookup rmap "/404.html" with
        | some res => (res, 404)
        | none => (sl.errNoSuchFile.getD defaultNoSuchFile, 404)

/-- `sitelist.fetch`: in development mode reload synchronously first,
discarding any load error, then resolve against the (possibly refreshed)
generation. -/
def Sitelist.fetch (co : Collab) (fs : FS) (sl : Sitelist) (u : URL) : Resource × Nat :=
  let sl' := if sl.devmode then (Sitelist.load co fs sl).1 else sl
  Sitelist.fetchResolve fs sl' u

/- ## The HTTP handler (sitelist.http) -/

structure Request where
  method : String
  host : String
  path : String
  tls : Bool
  headers : List (String × List String)
deriving DecidableEq

/-- `quickHeaderGet`: the first value of the header, bypassing
canonicalization (keys are already canonical). -/
def quickHeaderGet (key : String) (h : List (String × List String)) : Option String :=
  match (alookup h key).getD [] with
  | [] => none
  | v :: _ => some v

/-- `quickHeaderGetLast`: the last value of the header. -/
def quickHeaderGetLast (key : String) (h : List (String × List String)) : Option String :=
  match (alookup h key).getD [] with
  | [] => none
  | vs => vs.getLast?

/-- The gzip negotiation of the handler: the resource permits gzip and the
Accept-Encoding header contains the substring "gzip". -/
def negotiate (r : Resource) (ae : Option String) : Bool :=
  r.permitGZIP && (match ae with
                   | some s => hasSub s "gzip"
                   | none => false)

structure Response where
  status : Nat
  headers : List (String × List String)
  body : Option Bytes
  streamed : Bool
  streamGzip : Bool
deriving DecidableEq

def methodNotAllowed : Response :=
  { status := 405, headers := [("Content-Type", ["text/plain"])],
    body := some (strBytes "method not allowed"), streamed := false, streamGzip := false }

/-- `sitelist.http`: patch the URL from the request, reject non-GET/HEAD,
fetch, negotiate gzip, emit headers, answer 304 on a conditional hit (note
the comparison is against `r.hash`, while the Etag emitted is the selected
variant's tag), then stream or write the selected body. -/
def Sitelist.serve (co : Collab) (fs : FS) (sl : Sitelist) (req : Request) : Response :=
  let url : URL := { scheme := if req.tls then "https" else "http",
                     host := req.host, path := req.path }
  if !(req.method == "GET") && !(req.method == "HEAD") then methodNotAllowed
  else
    let head := req.method == "HEAD"
    let rs := Sitelist.fetch co fs sl url
    let r := rs.1
    let status := rs.2
    let useGZIP := negotiate r (quickHeaderGet "Accept-Encoding" req.headers)
    let body := if useGZIP then r.gzip else r.body
    let hash := if useGZIP then r.ghash else r.hash
    let h :=
      (if r.cnttype = "" then [] else [("Content-Type", [r.cnttype])])
      ++ (if useGZIP then [("Content-Encoding", ["gzip"])] else [])
      ++ [("Date", [co.fmtTime co.now]),
          ("Last-Modified", [co.fmtTime r.loaded]),
          ("Cache-Control", [r.cache]),
          ("Vary", ["Accept-Encoding"]),
          ("Etag", [hash])]
    let cacheResponse :=
      status == 200 &&
        (match quickHeaderGet "If-None-Match" req.headers with
         | some inm => inm == r.hash || inm == "*"
         | none =>
           match quickHeaderGet "If-Modified-Since" req.headers with
           | some ims =>
             match co.parseTime ims with
             | some t => t != 0 && decide (r.loaded < t)
             | none => false
           | none => false)
    if cacheResponse then
      { status := 304, headers := h, body := none, streamed := false, streamGzip := false }
    else if rs.1.bodyReadCloser.isSome then
      { status := status, headers := h, body := none,
        streamed := !head, streamGzip := !head && useGZIP }
    else
      { status := status,
        headers := h ++ [("Content-Length", [toString (body.getD []).length])],
        body := if head then none else some (body.getD []),
        streamed := false, streamGzip := false }

/- ## Concrete instances used by witnesses and counterexamples -/

def b300 : Bytes := List.replicate 300 7
def g280 : Bytes := List.replicate 280 9
def g200 : Bytes := List.replicate 200 9

/-- A collaborator whose digest is determined by the content (as a real
digest is) and whose compressor emits a 280-byte output. -/
def co280 : Collab :=
  { sha := fun b => "sha-" ++ toString b.length,
    gzipComp := fun _ => g280,
    now := 100, fmtTime := fun n => "t" ++ toString n, parseTime := fun _ => none }

/-- Like `co280` but compressing to 200 bytes. -/
def co200 : Collab := { co280 with gzipComp := fun _ => g200 }

/-- A filesystem with nothing in it. -/
def fs0 : FS :=
  { readDir := fun _ => none, stat := fun _ => none, readFile := fun _ => none,
    walk := fun _ => none, openFile := fun _ => none, tomlParse := fun _ => none }

/-- An empty but listable root. -/
def fsOk : FS := { fs0 with readDir := fun p => if p = "/srv" then some [] else none }

def sl0 : Sitelist :=
  { sites := [], errNoSuchHost := none, errNoSuchFile := none, root := "/srv",
    devmode := false, defaulthost := "", filesInMemory := 0,
    plainBytesInMemory := 0, gzipBytesInMemory := 0 }

def stEmpty : LoadSt :=
  { sites := [], errNoSuchHost := none, errNoSuchFile := none, cm := [], gzCount := 0 }

/-- Root with one host "h" whose http tree holds two files with identical
300-byte content, one with a blacklisted extension and one without. -/
def fs2 : FS :=
  { readDir := fun p =>
      if p = "/srv" then some [{ name := "h", isDir := true }]
      else if p = "/srv/h" then some [{ name := "http", isDir := true }]
      else none,
    stat := fun p =>
      if p = "/srv/h/http" then some { isDir := true, modTime := 0, size := 0 }
      else if p = "/srv/h/http/a.jpg" then some { isDir := false, modTime := 10, size := 300 }
      else if p = "/srv/h/http/b.bin" then some { isDir := false, modTime := 11, size := 300 }
      else none,
    readFile := fun p =>
      if p = "/srv/h/http/a.jpg" then some b300
      else if p = "/srv/h/http/b.bin" then some b300
      else none,
    walk := fun p =>
      if p = "/srv/h/http" then
        some ["/srv/h/http", "/srv/h/http/a.jpg", "/srv/h/http/b.bin"]
      else none,
    openFile := fun _ => none,
    tomlParse := fun _ => none }

def st2 : LoadSt :=
  match buildGenerationAux co280 fs2 "/srv" with
  | .ok st => st
  | .error _ => stEmpty

def site2 : Site := (alookup st2.sites "h").getD (newSite DefaultSiteConfig)

def rjpg : Resource := (alookup site2.http "/a.jpg").getD emptyResource

def rbin : Resource := (alookup site2.http "/b.bin").getD emptyResource

/-- A per-host policy asking for a 3.0 minimum compression ratio. -/
def cfgRatio3 : SiteConfig :=
  { DefaultSiteConfig with
    compression := { DefaultSiteConfig.compression with minRatio := (3 : ℚ) } }

/-- One 300-byte file "a.bin" that compresses to 200 bytes. -/
def fs3 : FS :=
  { fs0 with
    stat := fun p =>
      if p = "/srv/h/http/a.bin" then some { isDir := false, modTime := 1, size := 300 }
      else none,
    readFile := fun p => if p = "/srv/h/http/a.bin" then some b300 else none }

def res3 : Resource :=
  match addResource co200 fs3 (newSite cfgRatio3) "/srv/h/http/a.bin" "/a.bin" [] true true with
  | .ok (s, _, _) => (alookup s.http "/a.bin").getD emptyResource
  | .error _ => emptyResource

/-- An in-memory gzip-permitted resource with distinct plain/gzip tags. -/
def r4 : Resource :=
  { emptyResource with
    body := some (strBytes "plain-payload"), gzip := some (strBytes "gz"),
    permitGZIP := true, loaded := 5, cnttype := "text/html; charset=utf-8",
    cache := "public, max-age=3600", hash := "tag-plain", ghash := "tag-gzip",
    path := "/a.html" }

def site4 : Site := { http := [("/a", r4)], https := [], config := DefaultSiteConfig }

def sl4 : Sitelist := { sl0 with sites := [("example.com", site4)] }

def req4 : Request :=
  { method := "GET", host := "example.com", path := "/a", tls := false,
    headers := [("Accept-Encoding", ["gzip"]), ("If-None-Match", ["tag-gzip"])] }

/-- An in-memory resource published under a fancy-prefixed path. -/
def rmem5 : Resource :=
  { emptyResource with body := some [1, 2, 3], hash := "mem-tag", path := "/f/x" }

def site5 : Site := { http := [("/f/x", rmem5)], https := [], config := DefaultSiteConfig }

def sl5 : Sitelist := { sl0 with sites := [("h", site5)] }

/-- The on-disk fancy file that fetch would stream if it tried the disk. -/
def fs5 : FS :=
  { fs0 with
    openFile := fun p =>
      if p = "/srv/h/fancy/f/x" then some { isDir := false, modTime := 1, size := 10 }
      else none }

def u5 : URL := { scheme := "http", host := "h", path := "/f/x" }

def site6 : Site := newSite DefaultSiteConfig

def sl6 : Sitelist := { sl0 with sites := [("h", site6)] }

def fs6 : FS :=
  { fs0 with
    openFile := fun p =>
      if p = "/srv/h/fancy/f/big.bin" then some { isDir := false, modTime := 77, size := 999 }
      else none }

def u6 : URL := { scheme := "http", host := "h", path := "/f/big.bin" }

def u0 : URL := { scheme := "http", host := "nope.example", path := "/x" }

def slH : Sitelist := { sl0 with sites := [("h", newSite DefaultSiteConfig)] }

def uH : URL := { scheme := "http", host := "h", path := "/x" }

/-- A host whose policy file is present but does not parse. -/
def fs8 : FS :=
  { fs0 with
    readDir := fun p =>
      if p = "/srv" then some [{ name := "h", isDir := true }]
      else if p = "/srv/h" then some [] else none,
    readFile := fun p => if p = "/srv/h/config.toml" then some [1] else none }

def sl10 : Sitelist := { sl0 with devmode := true }

/- ## Facts about resource.update -/

theorem update_hash (r : Resource) : (Resource.update r).hash = r.hash := by
  simp only [Resource.update, apply_ite (fun x : Resource => x.hash)]
  simp

theorem update_ghash (r : Resource) : (Resource.update r).ghash = r.ghash := by
  simp only [Resource.update, apply_ite (fun x : Resource => x.ghash)]
  simp

theorem update_body (r : Resource) : (Resource.update r).body = r.body := by
  simp only [Resource.update, apply_ite (fun x : Resource => x.body)]
  simp

theorem update_gzip (r : Resource) :
    (Resource.update r).gzip = r.gzip ∨ (Resource.update r).gzip = none := by
  simp only [Resource.update, apply_ite (fun x : Resource => x.gzip)]
  split_ifs
  all_goals first
    | exact .inl rfl
    | exact .inr rfl
    | (by_cases hC : (r.gzip.isSome
          && decide (11 * List.length (r.gzip.getD []) ≥ 10 * List.length (r.body.getD []))) = true
       · exact .inr (if_pos hC)
       · exact .inl (if_neg hC))

theorem update_fromDisk (r : Resource) : (Resource.update r).fromDisk = r.fromDisk := by
  simp only [Resource.update, apply_ite (fun x : Resource => x.fromDisk)]
  simp

theorem update_permit_stays (r : Resource) (h : r.permitGZIP = true) :
    (Resource.update r).permitGZIP = true := by
  simp only [Resource.update, apply_ite (fun x : Resource => x.permitGZIP)]
  split_ifs
  all_goals first
    | exact h
    | rfl
    | simp [h]

/- ## The dedup invariant of one load pass -/

/-- Every binding of the first cache map survives into the second. -/
def cmExt (cm cm' : Cachemap) : Prop :=
  ∀ k e, alookup cm k = some e → alookup cm' k = some e

/-- Cache entries record the digest they are keyed by. -/
def cmOK (cm : Cachemap) : Prop := ∀ k e, alookup cm k = some e → e.hash = k

/-- A published resource carries the tuple of the cache entry at its digest
(the gzip buffer possibly cleared by its own policy update). -/
def resOK (cm : Cachemap) (r : Resource) : Prop :=
  ∃ e, alookup cm r.hash = some e ∧ r.body = some e.plain ∧ r.ghash = e.ghash ∧
    (r.gzip = some e.gz ∨ r.gzip = none)

def mapOK (cm : Cachemap) (m : List (String × Resource)) : Prop :=
  ∀ p r, alookup m p = some r → resOK cm r

def siteOK (cm : Cachemap) (s : Site) : Prop := mapOK cm s.http ∧ mapOK cm s.https

def sitesOK (cm : Cachemap) (ss : List (String × Site)) : Prop :=
  ∀ h s, alookup ss h = some s → siteOK cm s

theorem cmExt_refl (cm : Cachemap) : cmExt cm cm := fun _ _ h => h

theorem cmExt_trans {a b c : Cachemap} (h1 : cmExt a b) (h2 : cmExt b c) : cmExt a c :=
  fun k e h => h2 k e (h1 k e h)

theorem resOK_mono {cm cm' : Cachemap} {r : Resource} (he : cmExt cm cm')
    (h : resOK cm r) : resOK cm' r := by
  obtain ⟨e, h1, h2⟩ := h
  exact ⟨e, he _ _ h1, h2⟩

theorem mapOK_mono {cm cm' : Cachemap} {m : List (String × Resource)}
    (he : cmExt cm cm') (h : mapOK cm m) : mapOK cm' m :=
  fun p r hp => resOK_mono he (h p r hp)

theorem siteOK_mono {cm cm' : Cachemap} {s : Site}
    (he : cmExt cm cm') (h : siteOK cm s) : siteOK cm' s :=
  ⟨mapOK_mono he h.1, mapOK_mono he h.2⟩

theorem sitesOK_mono {cm cm' : Cachemap} {ss : List (String × Site)}
    (he : cmExt cm cm') (h : sitesOK cm ss) : sitesOK cm' ss :=
  fun hh s hs => siteOK_mono he (h hh s hs)

theorem mapOK_empty (cm : Cachemap) : mapOK cm [] := by
  intro p r hp
  simp [alookup] at hp

theorem siteOK_new (cm : Cachemap) (cfg : SiteConfig) : siteOK cm (newSite cfg) :=
  ⟨mapOK_empty cm, mapOK_empty cm⟩

theorem mapOK_aupd {cm : Cachemap} {m : List (String × Resource)} {r : Resource}
    (p : String) (hm : mapOK cm m) (hr : resOK cm r) : mapOK cm (aupd m p r) := by
  intro q r' hq
  simp only [aupd, alookup] at hq
  split at hq
  · cases hq
    exact hr
  · exact hm q r' hq

theorem siteOK_publish {cm : Cachemap} {s : Site} {r : Resource} (sp : String)
    (fh fhs : Bool) (hs : siteOK cm s) (hr : resOK cm r) :
    siteOK cm (publish s sp r fh fhs) := by
  constructor
  · show mapOK cm (if fh then aupd s.http sp r else s.http)
    cases fh
    · simpa using hs.1
    · simpa using mapOK_aupd sp hs.1 hr
  · show mapOK cm (if fhs then aupd s.https sp r else s.https)
    cases fhs
    · simpa using hs.2
    · simpa using mapOK_aupd sp hs.2 hr

theorem addResource_inv {co : Collab} {fs : FS} {s : Site} {dp sp : String}
    {cm : Cachemap} {fh fhs : Bool} {out : Site × Cachemap × Nat}
    (hok : addResource co fs s dp sp cm fh fhs = .ok out)
    (hcm : cmOK cm) (hs : siteOK cm s) :
    cmExt cm out.2.1 ∧ cmOK out.2.1 ∧ siteOK out.2.1 out.1 ∧
      out.2.1.length = cm.length + out.2.2 := by
  simp only [addResource] at hok
  split at hok
  · cases hok
  next fi0 hstat =>
    split at hok
    · injection hok with h
      subst h
      exact ⟨cmExt_refl cm, hcm, hs, rfl⟩
    next dp' fi hresv =>
      split at hok
      · cases hok
      next b hread =>
        split at hok
        next e halookup =>
          injection hok with h
          subst h
          have hres : resOK cm (Resource.update
              (mkMemRes s.config dp' fi.modTime e.plain e.gz e.hash e.ghash)) := by
            refine ⟨e, ?_, ?_, ?_, ?_⟩
            · rw [update_hash]
              show alookup cm e.hash = some e
              rw [hcm _ _ halookup]
              exact halookup
            · rw [update_body]
              rfl
            · rw [update_ghash]
              rfl
            · rcases update_gzip (mkMemRes s.config dp' fi.modTime e.plain e.gz e.hash e.ghash)
                with hg | hg
              · exact .inl hg
              · exact .inr hg
          exact ⟨cmExt_refl cm, hcm, siteOK_publish sp fh fhs hs hres, rfl⟩
        next hnone =>
          injection hok with h
          subst h
          have hext : cmExt cm ((co.sha b,
              { plain := b, gz := co.gzipComp b, hash := co.sha b,
                ghash := co.sha (co.gzipComp b) }) :: cm) := by
            intro k0 e0 h0
            rw [alookup_cons]
            split
            next hk =>
              rw [hk, hnone] at h0
              cases h0
            · exact h0
          have hres : resOK ((co.sha b,
              { plain := b, gz := co.gzipComp b, hash := co.sha b,
                ghash := co.sha (co.gzipComp b) }) :: cm)
              (Resource.update (mkMemRes s.config dp' fi.modTime b (co.gzipComp b)
                (co.sha b) (co.sha (co.gzipComp b)))) := by
            refine ⟨{ plain := b, gz := co.gzipComp b, hash := co.sha b,
                      ghash := co.sha (co.gzipComp b) }, ?_, ?_, ?_, ?_⟩
            · rw [update_hash]
              show alookup _ (co.sha b) = _
              rw [alookup_cons]
              simp
            · rw [update_body]
              rfl
            · rw [update_ghash]
              rfl
            · rcases update_gzip (mkMemRes s.config dp' fi.modTime b (co.gzipComp b)
                  (co.sha b) (co.sha (co.gzipComp b))) with hg | hg
              · exact .inl hg
              · exact .inr hg
          refine ⟨hext, ?_, siteOK_publish sp fh fhs (siteOK_mono hext hs) hres, by simp⟩
          · intro k0 e0 h0
            rw [alookup_cons] at h0
            split at h0
            next hk =>
              cases h0
              exact hk.symm
            · exact hcm _ _ h0

theorem foldPaths_inv {co : Collab} {fs : FS} {start : String} {fh fhs : Bool} :
    ∀ (paths : List String) (s : Site) (cm : Cachemap) (cnt : Nat)
      (out : Site × Cachemap × Nat),
      foldPaths co fs start fh fhs paths (s, cm, cnt) = .ok out →
      cmOK cm → siteOK cm s →
      cmExt cm out.2.1 ∧ cmOK out.2.1 ∧ siteOK out.2.1 out.1 ∧
        out.2.1.length + cnt = cm.length + out.2.2
  | [], s, cm, cnt, out, hok, hcm, hs => by
    injection hok with h
    subst h
    exact ⟨cmExt_refl cm, hcm, hs, rfl⟩
  | p :: rest, s, cm, cnt, out, hok, hcm, hs => by
    simp only [foldPaths] at hok
    split at hok
    · cases hok
    next s' cm' n hadd =>
      obtain ⟨he1, hcm1, hs1, hlen1⟩ := addResource_inv hadd hcm hs
      obtain ⟨he2, hcm2, hs2, hlen2⟩ := foldPaths_inv rest s' cm' (cnt + n) out hok hcm1 hs1
      refine ⟨cmExt_trans he1 he2, hcm2, hs2, ?_⟩
      simp only at hlen1 hlen2
      omega

theorem foldSchemes_inv {co : Collab} {fs : FS} {root name : String} :
    ∀ (cs : List DirEnt) (s : Site) (cm : Cachemap) (cnt : Nat)
      (out : Site × Cachemap × Nat),
      foldSchemes co fs root name cs (s, cm, cnt) = .ok out →
      cmOK cm → siteOK cm s →
      cmExt cm out.2.1 ∧ cmOK out.2.1 ∧ siteOK out.2.1 out.1 ∧
        out.2.1.length + cnt = cm.length + out.2.2
  | [], s, cm, cnt, out, hok, hcm, hs => by
    injection hok with h
    subst h
    exact ⟨cmExt_refl cm, hcm, hs, rfl⟩
  | c :: rest, s, cm, cnt, out, hok, hcm, hs => by
    simp only [foldSchemes] at hok
    split at hok
    · exact foldSchemes_inv rest s cm cnt out hok hcm hs
    · split at hok
      · cases hok
      next paths hwalk =>
        split at hok
        · cases hok
        next acc' hfold =>
          obtain ⟨s', cm', cnt'⟩ := acc'
          obtain ⟨he1, hcm1, hs1, hlen1⟩ :=
            foldPaths_inv paths s cm cnt (s', cm', cnt') hfold hcm hs
          obtain ⟨he2, hcm2, hs2, hlen2⟩ := foldSchemes_inv rest s' cm' cnt' out hok hcm1 hs1
          refine ⟨cmExt_trans he1 he2, hcm2, hs2, ?_⟩
          simp only at hlen1 hlen2
          omega

/-- The running invariant of a load pass over the whole state. -/
def stOK (st : LoadSt) : Prop :=
  cmOK st.cm ∧ sitesOK st.cm st.sites ∧ st.gzCount = st.cm.length

theorem buildHost_inv {co : Collab} {fs : FS} {root name : String}
    {schemes : List DirEnt} {conf : SiteConfig} {st st' : LoadSt}
    (hok : buildHost co fs root name schemes conf st = .ok st')
    (h : stOK st) : stOK st' := by
  simp only [buildHost] at hok
  split at hok
  · cases hok
  next s cm' cnt' hfold =>
    injection hok with h'
    subst h'
    obtain ⟨he, hcm', hs', hlen⟩ := foldSchemes_inv schemes (newSite conf) st.cm st.gzCount
      (s, cm', cnt') hfold h.1 (siteOK_new st.cm conf)
    refine ⟨hcm', ?_, ?_⟩
    · intro hh s0 hs0
      simp only [aupd, alookup] at hs0
      split at hs0
      · cases hs0
        exact hs'
      · exact siteOK_mono he (h.2.1 hh s0 hs0)
    · have h2 := h.2.2
      simp only at hlen
      simp only [LoadSt.gzCount, LoadSt.cm]
      omega

theorem processEntry_inv {co : Collab} {fs : FS} {root : String}
    {st : LoadSt} {e : DirEnt} {st' : LoadSt}
    (hok : processEntry co fs root st e = .ok st')
    (h : stOK st) : stOK st' := by
  simp only [processEntry] at hok
  split at hok
  · split at hok
    · split at hok
      · cases hok
      · split at hok
        · injection hok with h'
          subst h'
          exact h
        · injection hok with h'
          subst h'
          exact h
    · injection hok with h'
      subst h'
      exact h
  · split at hok
    · cases hok
    · split at hok
      · cases hok
      · exact buildHost_inv hok h

theorem foldEntries_inv {co : Collab} {fs : FS} {root : String} :
    ∀ (es : List DirEnt) (st st' : LoadSt),
      foldEntries co fs root es st = .ok st' → stOK st → stOK st'
  | [], st, st', hok, h => by
    injection hok with h'
    subst h'
    exact h
  | e :: rest, st, st', hok, h => by
    simp only [foldEntries] at hok
    split at hok
    · cases hok
    next st1 hpe =>
      exact foldEntries_inv rest st1 st' hok (processEntry_inv hpe h)

theorem buildGen_inv {co : Collab} {fs : FS} {root : String} {st : LoadSt}
    (hok : buildGenerationAux co fs root = .ok st) : stOK st := by
  simp only [buildGenerationAux] at hok
  split at hok
  · cases hok
  next files hdir =>
    refine foldEntries_inv files _ st hok ⟨?_, ?_, rfl⟩
    · intro k e h
      simp [alookup] at h
    · intro hh s h
      simp [alookup] at h

/- ## Claims -/

/-- Claim C1: if the build phase of load() fails at any point (root
unlistable, scheme subtree unreadable, unreadable content file), the
registry's published state — host map, global fallbacks and aggregate
statistics — is exactly what it was before the call; on success all of them
are replaced together in the single install step from the built generation. -/
theorem c1_load_atomic (co : Collab) (fs : FS) (sl : Sitelist) :
    (∀ e, buildGenerationAux co fs sl.root = .error e →
      Sitelist.load co fs sl = (sl, true)) ∧
    (∀ st, buildGenerationAux co fs sl.root = .ok st →
      Sitelist.load co fs sl =
        ({ sl with sites := st.sites,
                   errNoSuchFile := st.errNoSuchFile,
                   errNoSuchHost := st.errNoSuchHost,
                   filesInMemory := st.cm.length,
                   plainBytesInMemory := (st.cm.map (fun kv => kv.2.plain.length)).sum,
                   gzipBytesInMemory := (st.cm.map (fun kv => kv.2.gz.length)).sum },
         false)) := by
  constructor
  · intro e he
    simp only [Sitelist.load, he]
  · intro st hst
    simp only [Sitelist.load, hst]

theorem c1_load_atomic_witness :
    Sitelist.load co280 fs0 sl0 = (sl0, true) ∧
    Sitelist.load co280 fsOk sl0 =
      ({ sl0 with sites := [], errNoSuchFile := none, errNoSuchHost := none,
                  filesInMemory := 0, plainBytesInMemory := 0,
                  gzipBytesInMemory := 0 }, false) :=
  ⟨(c1_load_atomic co280 fs0 sl0).1 () rfl,
   (c1_load_atomic co280 fsOk sl0).2 stEmpty rfl⟩

/-- Claim C7: fetch resolution is total — every (scheme, host, path) yields
a (resource, status) pair with status 200, 403 or 404, and with nothing
configured it bottoms out at the hardcoded built-in no-such-host and
no-such-file resources. -/
theorem c7_fetch_total (fs : FS) (sl : Sitelist) (u : URL) :
    ((Sitelist.fetchResolve fs sl u).2 = 200 ∨ (Sitelist.fetchResolve fs sl u).2 = 403 ∨
      (Sitelist.fetchResolve fs sl u).2 = 404) ∧
    (resolveSite sl (stripPort u.host) = none → sl.errNoSuchHost = none →
      Sitelist.fetchResolve fs sl u = (defaultNoSuchHost, 403)) ∧
    (∀ s, resolveSite sl (stripPort u.host) = some s →
      alookup (schemeMap s u.scheme) (pathClean u.path) = none →
      fancyLookup fs sl.root (stripPort u.host) s.config (pathClean u.path) = none →
      alookup (schemeMap s u.scheme) "/404.html" = none →
      sl.errNoSuchFile = none →
      Sitelist.fetchResolve fs sl u = (defaultNoSuchFile, 404)) := by
  refine ⟨?_, ?_, ?_⟩
  · simp only [Sitelist.fetchResolve]
    repeat' split
    all_goals simp
  · intro h1 h2
    simp [Sitelist.fetchResolve, h1, h2]
  · intro s hs hmap hfancy h404 hnf
    simp [Sitelist.fetchResolve, hs, hmap, hfancy, h404, hnf]

theorem c7_fetch_total_witness :
    Sitelist.fetchResolve fs0 sl0 u0 = (defaultNoSuchHost, 403) ∧
    Sitelist.fetchResolve fs0 slH uH = (defaultNoSuchFile, 404) :=
  ⟨(c7_fetch_total fs0 sl0 u0).2.1 rfl rfl,
   (c7_fetch_total fs0 slH uH).2.2 (newSite DefaultSiteConfig)
     (by rfl) (by rfl) (by rfl) (by rfl) (by rfl)⟩

/-- Claim C9: every disk-streamed fancy resource keeps permitGZIP = true
under every policy configuration — the blacklist, the minimum compressible
size and NoCompressFromDisk never clear it (update only returns early,
leaving the initial true in place) — so gzip is negotiated whenever the
request's Accept-Encoding contains "gzip". -/
theorem c9_fancy_gzip (cfg : SiteConfig) (p : String) (mt sz : Nat) (ae : String) :
    (Resource.update (fancyInit cfg p mt sz)).permitGZIP = true ∧
    (hasSub ae "gzip" = true →
      negotiate (Resource.update (fancyInit cfg p mt sz)) (some ae) = true) := by
  have hp : (Resource.update (fancyInit cfg p mt sz)).permitGZIP = true :=
    update_permit_stays _ rfl
  refine ⟨hp, fun hae => ?_⟩
  simp [negotiate, hp, hae]

theorem c9_fancy_gzip_witness :
    (Resource.update (fancyInit DefaultSiteConfig "/srv/h/fancy/f/a.jpg" 1 2)).permitGZIP
      = true ∧
    negotiate (Resource.update (fancyInit DefaultSiteConfig "/srv/h/fancy/f/a.jpg" 1 2))
      (some "gzip") = true :=
  ⟨(c9_fancy_gzip DefaultSiteConfig "/srv/h/fancy/f/a.jpg" 1 2 "gzip").1,
   (c9_fancy_gzip DefaultSiteConfig "/srv/h/fancy/f/a.jpg" 1 2 "gzip").2 (by rfl)⟩

/-- Claim C10: in development mode, when the synchronous reload at the start
of fetch fails, the error is discarded and fetch resolves against the
previously published generation; no error reaches the caller. -/
theorem c10_devmode_silent (co : Collab) (fs : FS) (sl : Sitelist) (u : URL)
    (hdev : sl.devmode = true) (hfail : buildGenerationAux co fs sl.root = .error ()) :
    Sitelist.fetch co fs sl u = Sitelist.fetchResolve fs sl u := by
  simp only [Sitelist.fetch, hdev, if_true, Sitelist.load, hfail]

theorem c10_devmode_silent_witness :
    sl10.devmode = true ∧ buildGenerationAux co280 fs0 sl10.root = .error () ∧
    Sitelist.fetch co280 fs0 sl10 u0 = Sitelist.fetchResolve fs0 sl10 u0 :=
  ⟨rfl, rfl, c10_devmode_silent co280 fs0 sl10 u0 rfl rfl⟩

/-- Claim C5 (counterexample): a fancy-prefixed path that is present in the
in-memory scheme map is answered from the map, not by opening the host's
fancy directory — even though the disk open would have succeeded — so the
claim that the fancy-prefix check precedes the exact map lookup is false. -/
theorem c5_order_cx :
    Sitelist.fetchResolve fs5 sl5 u5 = (rmem5, 200) ∧
    rmem5.fromDisk = false ∧
    strHasPre site5.config.general.fancyFolder (pathClean u5.path) = true ∧
    fs5.openFile (pathJoinList [sl5.root, stripPort u5.host, "fancy", pathClean u5.path])
      = some { isDir := false, modTime := 1, size := 10 } := by
  exact ⟨by rfl, rfl, by rfl, by rfl⟩

/-- Claim C5 (amended): fetch consults the in-memory scheme map first for
every path; a path under the fancy prefix is opened from the on-disk fancy
directory only when the exact map lookup misses. -/
theorem c5_order_amended (fs : FS) (sl : Sitelist) (u : URL) (s : Site)
    (hs : resolveSite sl (stripPort u.host) = some s) :
    (∀ r, alookup (schemeMap s u.scheme) (pathClean u.path) = some r →
      Sitelist.fetchResolve fs sl u = (r, 200)) ∧
    (alookup (schemeMap s u.scheme) (pathClean u.path) = none →
      ∀ fi, strHasPre s.config.general.fancyFolder (pathClean u.path) = true →
        fs.openFile (pathJoinList [sl.root, stripPort u.host, "fancy", pathClean u.path])
          = some fi →
        fi.isDir = false →
        Sitelist.fetchResolve fs sl u =
          (Resource.update (fancyInit s.config
            (pathJoinList [sl.root, stripPort u.host, "fancy", pathClean u.path])
            fi.modTime fi.size), 200)) := by
  constructor
  · intro r hr
    simp [Sitelist.fetchResolve, hs, hr]
  · intro hmiss fi hpre hopen hdir
    simp [Sitelist.fetchResolve, fancyLookup, hs, hmiss, hpre, hopen, hdir]

theorem c5_order_amended_witness :
    Sitelist.fetchResolve fs5 sl5 u5 = (rmem5, 200) ∧
    Sitelist.fetchResolve fs6 sl6 u6 =
      (Resource.update (fancyInit site6.config "/srv/h/fancy/f/big.bin" 77 999), 200) :=
  ⟨(c5_order_amended fs5 sl5 u5 site5 (by rfl)).1 rmem5 (by rfl),
   (c5_order_amended fs6 sl6 u6 site6 (by rfl)).2 (by rfl)
     { isDir := false, modTime := 77, size := 999 } (by rfl) (by rfl) (by rfl)⟩

/-- Claim C6 (counterexample): a fancy-synthesized resource under the
default policy is served with "public, max-age=3600", not the no-cache
directive, so the cache policy is not forced to no-cache. -/
theorem c6_fancy_cache_cx :
    (Sitelist.fetchResolve fs6 sl6 u6).1.fromDisk = true ∧
    (Sitelist.fetchResolve fs6 sl6 u6).2 = 200 ∧
    (Sitelist.fetchResolve fs6 sl6 u6).1.cache = "public, max-age=3600" ∧
    ¬((Sitelist.fetchResolve fs6 sl6 u6).1.cache = "public, max-age=0, no-cache") := by
  have hc : (Sitelist.fetchResolve fs6 sl6 u6).1.cache = "public, max-age=3600" := by rfl
  refine ⟨by rfl, by rfl, hc, ?_⟩
  intro h
  rw [hc] at h
  exact absurd h (by decide)

/-- Claim C6 (amended): every fancy-synthesized resource is marked
disk-origin, and its Cache-Control follows the disk-origin cache policy:
the no-cache directive exactly when NoCacheFromDisk is set or the resolved
per-extension/default duration is zero, and max-age of that duration
otherwise. -/
theorem c6_fancy_cache_amended (cfg : SiteConfig) (p : String) (mt sz : Nat) :
    (Resource.update (fancyInit cfg p mt sz)).fromDisk = true ∧
    (Resource.update (fancyInit cfg p mt sz)).cache =
      (if cfg.cache.noCacheFromDisk then "public, max-age=0, no-cache"
       else
         let d := (alookup cfg.cache.cacheTimes (pathExt p)).getD cfg.cache.defaultCacheTime
         if d = 0 then "public, max-age=0, no-cache"
         else "public, max-age=" ++ toString d) := by
  constructor
  · rw [update_fromDisk]
    rfl
  · simp only [Resource.update, fancyInit, emptyResource,
      apply_ite (fun x : Resource => x.cache)]
    cases hncd : cfg.cache.noCacheFromDisk
    · cases halk : alookup cfg.cache.cacheTimes (pathExt p) <;>
        simp [hncd, halk]
    · simp [hncd]

/-- Claim C8 (counterexample): a per-host policy file that is present but
fails to parse aborts the whole load() with an error — the host's site is
not built — so "missing or unparseable never aborts load" is false. -/
theorem c8_conf_cx : buildGenerationAux co280 fs8 "/srv" = .error () := by rfl

/-- Claim C8 (amended): a missing or unreadable per-host policy file never
aborts load(): readSiteConf returns the default policy together with the
error, and the host's site is still built against the default policy; a
policy file that reads but fails to parse, however, returns a nil config
and aborts the load. -/
theorem c8_conf_amended :
    (∀ (fs : FS) (p : String), fs.readFile p = none →
      readSiteConf fs p = (some DefaultSiteConfig, true)) ∧
    (∀ (co : Collab) (fs : FS) (root : String) (st : LoadSt) (e : DirEnt)
      (schemes : List DirEnt),
      e.isDir = true →
      fs.readDir (pathJoinList [root, e.name]) = some schemes →
      fs.readFile (pathJoinList [root, e.name, "config.toml"]) = none →
      processEntry co fs root st e = buildHost co fs root e.name schemes DefaultSiteConfig st) := by
  constructor
  · intro fs p h
    simp [readSiteConf, h]
  · intro co fs root st e schemes hdir hrd hrf
    simp [processEntry, hdir, hrd, readSiteConf, hrf]

theorem c8_conf_amended_witness :
    readSiteConf fs2 "/srv/h/config.toml" = (some DefaultSiteConfig, true) ∧
    processEntry co280 fs2 "/srv" stEmpty { name := "h", isDir := true }
      = buildHost co280 fs2 "/srv" "h" [{ name := "http", isDir := true }]
          DefaultSiteConfig stEmpty :=
  ⟨c8_conf_amended.1 fs2 "/srv/h/config.toml" (by rfl),
   c8_conf_amended.2 co280 fs2 "/srv" stEmpty { name := "h", isDir := true }
     [{ name := "http", isDir := true }] rfl (by rfl) (by rfl)⟩

/-- Claim C4 (code bug): for an OK fetch with gzip negotiated and
If-None-Match equal to the gzip variant's tag — the very tag the handler
emits in its own Etag header — the handler compares If-None-Match against
the plain tag `r.hash` instead of the selected tag and returns a 200 with
the full gzip body instead of 304 with no body. -/
theorem c4_inm_selected_tag_bug :
    (Sitelist.serve co280 fs0 sl4 req4).status = 200 ∧
    (Sitelist.serve co280 fs0 sl4 req4).body = some (strBytes "gz") ∧
    alookup (Sitelist.serve co280 fs0 sl4 req4).headers "Etag" = some ["tag-gzip"] ∧
    quickHeaderGet "If-None-Match" req4.headers = some "tag-gzip" ∧
    r4.ghash = "tag-gzip" :=
  ⟨by rfl, by rfl, by rfl, by rfl, rfl⟩

/-- Claim C3 (counterexample): a resource built by addResource under a
per-host policy with MinRatio = 3.0 still has gzip attached although the
gzip size times the configured ratio (200 × 3 = 600) is not smaller than
the plain size (300): update() hardcodes the 1.1 ratio (11·200 < 10·300)
and never reads MinRatio. -/
theorem c3_gzip_policy_cx :
    res3.permitGZIP = true ∧
    res3.gzip = some g200 ∧
    res3.body = some b300 ∧
    ¬((g200.length : ℚ) * cfgRatio3.compression.minRatio < (b300.length : ℚ)) := by
  refine ⟨by rfl, by rfl, by rfl, ?_⟩
  intro hlt
  have hg : g200.length = 200 := by simp [g200]
  have hb : b300.length = 300 := by simp [b300]
  have hr : cfgRatio3.compression.minRatio = 3 := rfl
  rw [hg, hb, hr] at hlt
  norm_num at hlt

/-- Claim C3 (amended): for a resource built by a build pass (in-memory,
body and gzip both present), gzip is permitted iff NoCompressFromMem is
unset, the plain size is at least the effective minimum size, the extension
is not blacklisted, and gzip size × 1.1 < plain size — the ratio is the
hardcoded constant 1.1 (11/10), the configured MinRatio being ignored; and
the gzip payload is discarded only when the ratio condition is the failing
one (policy, size and blacklist failures return early with the payload
still attached, though unserved). -/
theorem c3_gzip_policy_amended (cfg : SiteConfig) (dp : String) (mt : Nat)
    (b g : Bytes) (h gh : String) :
    (Resource.update (mkMemRes cfg dp mt b g h gh)).permitGZIP =
      (!cfg.compression.noCompressFromMem
        && !decide (b.length <
             (if cfg.compression.minSize = 0 then DefaultSiteConfig.compression.minSize
              else cfg.compression.minSize))
        && !(cfg.compression.blacklist.contains (pathExt dp))
        && decide (11 * g.length < 10 * b.length)) ∧
    (Resource.update (mkMemRes cfg dp mt b g h gh)).gzip =
      (if !cfg.compression.noCompressFromMem
          && !decide (b.length <
               (if cfg.compression.minSize = 0 then DefaultSiteConfig.compression.minSize
                else cfg.compression.minSize))
          && !(cfg.compression.blacklist.contains (pathExt dp))
          && !decide (11 * g.length < 10 * b.length)
       then none else some g) := by
  constructor
  · simp only [Resource.update, mkMemRes, emptyResource,
      apply_ite (fun x : Resource => x.permitGZIP)]
    cases hncm : cfg.compression.noCompressFromMem <;>
      cases hbl : cfg.compression.blacklist.contains (pathExt dp) <;>
        by_cases hmin : b.length <
            (if cfg.compression.minSize = 0 then DefaultSiteConfig.compression.minSize
             else cfg.compression.minSize) <;>
          by_cases hrat : 11 * g.length ≥ 10 * b.length <;>
            simp_all
  · simp only [Resource.update, mkMemRes, emptyResource,
      apply_ite (fun x : Resource => x.gzip)]
    cases hncm : cfg.compression.noCompressFromMem <;>
      cases hbl : cfg.compression.blacklist.contains (pathExt dp) <;>
        by_cases hmin : b.length <
            (if cfg.compression.minSize = 0 then DefaultSiteConfig.compression.minSize
             else cfg.compression.minSize) <;>
          by_cases hrat : 11 * g.length ≥ 10 * b.length <;>
            simp_all

theorem siteOK_schemeMap {cm : Cachemap} {s : Site} (hs : siteOK cm s)
    (σ p : String) (r : Resource)
    (hp : alookup (schemeMap s σ) p = some r) : resOK cm r := by
  unfold schemeMap at hp
  split at hp
  · exact hs.2 p r hp
  · exact hs.1 p r hp

/-- Claim C2 (counterexample): two files published in one load pass with
byte-identical 300-byte content share the plain buffer and both tags, but
their gzip buffers are not shared: the .jpg resource (blacklisted
extension, update returns before the ratio check) keeps the cached gzip
buffer while the .bin resource's policy update clears its gzip in the
ratio step, leaving it nil. -/
theorem c2_dedup_cx :
    rjpg.body = rbin.body ∧ rjpg.hash = rbin.hash ∧ rjpg.ghash = rbin.ghash ∧
    rjpg.gzip = some g280 ∧ rbin.gzip = none :=
  ⟨by rfl, by rfl, by rfl, by rfl, by rfl⟩

/-- Claim C2 (amended): within one successful load pass, any two published
resources with the same content digest draw their plain buffer, plain tag
and gzip tag verbatim from the same dedup-cache tuple (so these are always
equal, and the number of gzip compressions performed equals the number of
distinct digests — nothing is recomputed); their gzip buffers are the
tuple's buffer as well unless a resource's own policy update cleared it in
the ratio step, so the gzip buffers agree whenever both are present. -/
theorem c2_dedup_amended (co : Collab) (fs : FS) (root : String) (st : LoadSt)
    (hok : buildGenerationAux co fs root = .ok st) :
    st.gzCount = st.cm.length ∧
    ∀ h1 s1 σ1 p1 r1 h2 s2 σ2 p2 r2,
      alookup st.sites h1 = some s1 → alookup (schemeMap s1 σ1) p1 = some r1 →
      alookup st.sites h2 = some s2 → alookup (schemeMap s2 σ2) p2 = some r2 →
      r1.hash = r2.hash →
      r1.body = r2.body ∧ r1.body.isSome = true ∧ r1.ghash = r2.ghash ∧
        (r1.gzip = r2.gzip ∨ r1.gzip = none ∨ r2.gzip = none) := by
  obtain ⟨hcm, hsites, hcnt⟩ := buildGen_inv hok
  refine ⟨hcnt, ?_⟩
  intro h1 s1 σ1 p1 r1 h2 s2 σ2 p2 r2 hs1 hp1 hs2 hp2 hh
  obtain ⟨e1, he1, hb1, hg1, hz1⟩ := siteOK_schemeMap (hsites h1 s1 hs1) σ1 p1 r1 hp1
  obtain ⟨e2, he2, hb2, hg2, hz2⟩ := siteOK_schemeMap (hsites h2 s2 hs2) σ2 p2 r2 hp2
  rw [hh] at he1
  have hee : e1 = e2 := by
    have := he1.symm.trans he2
    injection this
  subst hee
  refine ⟨?_, ?_, ?_, ?_⟩
  · rw [hb1, hb2]
  · rw [hb1]
    rfl
  · rw [hg1, hg2]
  · rcases hz1 with hz1 | hz1
    · rcases hz2 with hz2 | hz2
      · exact .inl (by rw [hz1, hz2])
      · exact .inr (.inr hz2)
    · exact .inr (.inl hz1)

theorem c2_dedup_amended_witness :
    st2.gzCount = st2.cm.length ∧
    (rjpg.body = rbin.body ∧ rjpg.body.isSome = true ∧ rjpg.ghash = rbin.ghash ∧
      (rjpg.gzip = rbin.gzip ∨ rjpg.gzip = none ∨ rbin.gzip = none)) := by
  have h := c2_dedup_amended co280 fs2 "/srv" st2 (by rfl)
  exact ⟨h.1, h.2 "h" site2 "http" "/a.jpg" rjpg "h" site2 "http" "/b.bin" rbin
    (by rfl) (by rfl) (by rfl) (by rfl) (by rfl)⟩
